import Mathlib

/-!
Verification development for the shader-introspecting GPU resource manager
(shade-rs). The definitions below are a shallow embedding of
`src/vulkan/resources/shader_module.rs`, `src/vulkan/resources/descriptor_pool.rs`
and `src/vulkan/multi_buffer.rs`. The GLSL syntax tree mirrors the subset of the
`glsl` crate's AST that the reflector inspects: constructors that the source
code only ever hits with a catch-all arm are represented by a few
representative constructors. `NonEmpty` wrappers are modelled as plain lists
(the nonemptiness is never used by the reflector). Rust side effects are made
explicit: `warn!` becomes a returned Boolean flag, `panic!` becomes the error
side of an `Except`, and RAII drops become explicit frees on an allocation
state.
-/

/-- The error type of the repository (`crate::error::Error`); only the
`Local` constructor is produced by the reflector. -/
inductive Error where
  | Local (msg : String)
deriving DecidableEq

/-- Rust `value as u32` for an `i32` value: two's-complement reinterpretation,
i.e. the value modulo 2^32. -/
def u32ofInt (v : Int) : Nat := (v.emod 4294967296).toNat

/-- Rust `value as usize` for an `i32` value (64-bit target): the value modulo
2^64. -/
def usizeOfInt (v : Int) : Nat := (v.emod 18446744073709551616).toNat

/-- Mirror of `glsl::syntax::Expr`. The reflector only ever distinguishes
`IntConst`; the remaining constructors stand for all other expression forms,
which the source treats uniformly through catch-all match arms. -/
inductive Expr where
  | IntConst (v : Int)
  | FloatConst
  | BoolConst
  | Variable (s : String)
deriving DecidableEq

/-- Mirror of `glsl::syntax::LayoutQualifierSpec`: an identifier with an
optional value, or one of the non-identifier forms (`shared`), which
`simplify_layout_qualifiers` rejects. -/
inductive LayoutQualifierSpec where
  | Identifier (name : String) (value : Option Expr)
  | Shared
deriving DecidableEq

/-- Mirror of `glsl::syntax::StorageQualifier` (representative subset: the
source matches `Const`, `In`, `Uniform`, `Buffer` explicitly and treats all
others through catch-all arms). -/
inductive StorageQualifier where
  | Const
  | In
  | Out
  | Uniform
  | Buffer
  | Shared
deriving DecidableEq

/-- Mirror of `glsl::syntax::TypeQualifierSpec`: the source matches `Storage`
and `Layout`; `Precise` stands for the remaining qualifier forms. -/
inductive TypeQualifierSpec where
  | Storage (q : StorageQualifier)
  | Layout (ids : List LayoutQualifierSpec)
  | Precise
deriving DecidableEq

/-- Mirror of `glsl::syntax::TypeQualifier` (the `NonEmpty` wrapper is a
plain list here). -/
structure TypeQualifier where
  qualifiers : List TypeQualifierSpec
deriving DecidableEq

/-- Mirror of `glsl::syntax::TypeSpecifierNonArray`. The first group lists
exactly the constructors that `BlockField::byte_size` gives a size to; the
second group are representatives of the remaining constructors, which the
source sends to the catch-all `panic!` arm. -/
inductive TypeSpecifierNonArray where
  | Void
  | Bool
  | Int
  | UInt
  | Float
  | Double
  | Vec2
  | Vec3
  | Vec4
  | IVec2
  | IVec3
  | IVec4
  | UVec2
  | UVec3
  | UVec4
  | Mat2
  | Mat3
  | Mat4
  | Mat23
  | Mat24
  | Mat32
  | Mat34
  | Mat42
  | Mat43
  | BVec2
  | BVec3
  | BVec4
  | DVec2
  | DVec3
  | DVec4
  | DMat2
  | Sampler2D
  | Image2D
  | AtomicUInt
  | TypeName (name : String)
deriving DecidableEq

/-- Mirror of `glsl::syntax::ArraySpecifierDimension`. -/
inductive ArraySpecifierDimension where
  | ExplicitlySized (e : Expr)
  | Unsized
deriving DecidableEq

/-- Mirror of `glsl::syntax::ArraySpecifier`. -/
structure ArraySpecifier where
  dimensions : List ArraySpecifierDimension
deriving DecidableEq

/-- Mirror of `glsl::syntax::TypeSpecifier`. -/
structure TypeSpecifier where
  ty : TypeSpecifierNonArray
  array_specifier : Option ArraySpecifier
deriving DecidableEq

/-- Mirror of `glsl::syntax::FullySpecifiedType`. -/
structure FullySpecifiedType where
  qualifier : Option TypeQualifier
  ty : TypeSpecifier
deriving DecidableEq

/-- Mirror of `glsl::syntax::SingleDeclaration`. The initializer is only ever
tested for presence by the source, so it is modelled as `Option Unit`
(field name `init`, source field has the full initializer expression). -/
structure SingleDeclaration where
  ty : FullySpecifiedType
  name : Option String
  array_specifier : Option ArraySpecifier
  init : Option Unit
deriving DecidableEq

/-- Mirror of `glsl::syntax::InitDeclaratorList`. The tail entries are only
ever tested for emptiness by the source, so they are modelled as `Unit`s. -/
structure InitDeclaratorList where
  head : SingleDeclaration
  tail : List Unit
deriving DecidableEq

/-- Mirror of `glsl::syntax::ArrayedIdentifier`. -/
structure ArrayedIdentifier where
  ident : String
  array_spec : Option ArraySpecifier
deriving DecidableEq

/-- Mirror of `glsl::syntax::StructFieldSpecifier`. -/
structure StructFieldSpecifier where
  qualifier : Option TypeQualifier
  ty : TypeSpecifier
  identifiers : List ArrayedIdentifier
deriving DecidableEq

/-- Mirror of `glsl::syntax::Block`. -/
structure Block where
  qualifier : TypeQualifier
  name : String
  fields : List StructFieldSpecifier
  identifier : Option ArrayedIdentifier
deriving DecidableEq

/-- Mirror of `glsl::syntax::Declaration` (the payloads of `Precision` and
`FunctionPrototype` are ignored by the source, so they are omitted). -/
inductive Declaration where
  | Global (tq : TypeQualifier) (global_names : List String)
  | InitDeclaratorList (idl : InitDeclaratorList)
  | Block (b : Block)
  | Precision
  | FunctionPrototype
deriving DecidableEq

/-- Mirror of `glsl::syntax::ExternalDeclaration` (payloads of the ignored
constructors omitted). -/
inductive ExternalDeclaration where
  | Declaration (d : Declaration)
  | Preprocessor
  | FunctionDefinition
deriving DecidableEq

/-- Mirror of `vk::DescriptorType` (representative subset; the source only
constructs `UNIFORM_BUFFER` and `STORAGE_BUFFER` in the reflector and counts
arbitrary types in the descriptor pool). -/
inductive DescriptorType where
  | UNIFORM_BUFFER
  | STORAGE_BUFFER
  | STORAGE_IMAGE
  | COMBINED_IMAGE_SAMPLER
deriving DecidableEq

/-- Per-element body of `simplify_layout_qualifiers`
(shader_module.rs:85-100): unpack an identifier layout qualifier spec, reject
every other form. -/
def simplify_layout_qualifier (lq : LayoutQualifierSpec) :
    Except Error (String × Option Expr) :=
  match lq with
  | .Identifier name maybe_value => .ok (name, maybe_value)
  | _ => .error (Error.Local "Unexpected layout qualifier spec")

/-- Workgroup size triple (`LocalSize` in shader_module.rs:527). -/
abbrev LocalSize := Nat × Nat × Nat

/-- Inner loop of `match_globals` over the identifiers of one layout
qualifier (shader_module.rs:120-140): extract the int value (anything else is
an error), then assign the axis named `local_size_x`/`y`/`z`; any other name
is an error. -/
def matchGlobalsLayoutIds :
    List LayoutQualifierSpec → LocalSize → Except Error LocalSize
  | [], acc => .ok acc
  | lq :: rest, acc =>
    match simplify_layout_qualifier lq with
    | .error e => .error e
    | .ok (name, maybe_value) =>
      match maybe_value with
      | some (.IntConst v) =>
        let value := u32ofInt v
        if name = "local_size_x" then
          matchGlobalsLayoutIds rest (value, acc.2.1, acc.2.2)
        else if name = "local_size_y" then
          matchGlobalsLayoutIds rest (acc.1, value, acc.2.2)
        else if name = "local_size_z" then
          matchGlobalsLayoutIds rest (acc.1, acc.2.1, value)
        else .error (Error.Local ("Unexpected layout identifier: " ++ name))
      | _ => .error (Error.Local "Unexpected value")

/-- Outer loop of `match_globals` over the type qualifier specs
(shader_module.rs:112-147): `in` storage is accepted, a layout qualifier
updates the local size, anything else is an error. -/
def matchGlobalsGo :
    List TypeQualifierSpec → LocalSize → Except Error LocalSize
  | [], acc => .ok acc
  | .Storage .In :: rest, acc => matchGlobalsGo rest acc
  | .Layout ids :: rest, acc =>
    match matchGlobalsLayoutIds ids acc with
    | .error e => .error e
    | .ok acc' => matchGlobalsGo rest acc'
  | _ :: _, _ =>
    .error (Error.Local "Unexpected global type qualifier spec")

/-- Mirror of `match_globals` (shader_module.rs:102-150): the local size
starts at (1,1,1) and is updated by the layout qualifiers. The global names
are unused by the source (`_global_names`). -/
def match_globals (tq : TypeQualifier) (_global_names : List String) :
    Except Error LocalSize :=
  matchGlobalsGo tq.qualifiers (1, 1, 1)

/-- Mirror of `VariableDeclaration` (shader_module.rs:152-159). -/
structure VariableDeclaration where
  name : String
  type_specifier : TypeSpecifierNonArray
  binding : Option Nat
  set : Option Nat
  type_format : Option String
deriving DecidableEq

/-- Mirror of `VariableDeclaration::checked_set` (shader_module.rs:161-168):
the set index defaults to 0. The `warn!` side effect is made explicit as the
second component: `true` means the "Assuming set=0" diagnostic was emitted. -/
def VariableDeclaration.checked_set (d : VariableDeclaration) : Nat × Bool :=
  match d.set with
  | some s => (s, false)
  | none => (0, true)

/-- Accumulator for the layout-identifier loop of
`match_init_declarator_list` (the mutable locals `binding`, `set`,
`type_format` of shader_module.rs:202-204). -/
structure VarLayoutAcc where
  binding : Option Nat
  set : Option Nat
  type_format : Option String
deriving DecidableEq

/-- One arm of the `match (name, maybe_value)` in
`match_init_declarator_list` (shader_module.rs:217-228): `binding` and `set`
require int values, `rgba32f` requires no value, everything else is an
error. -/
def matchVariableLayoutId (name : String) (maybe_value : Option Expr)
    (acc : VarLayoutAcc) : Except Error VarLayoutAcc :=
  match name, maybe_value with
  | "binding", some (.IntConst v) => .ok { acc with binding := some (u32ofInt v) }
  | "rgba32f", none => .ok { acc with type_format := some "rgba32f" }
  | "set", some (.IntConst v) => .ok { acc with set := some (usizeOfInt v) }
  | _, _ => .error (Error.Local "Unexpected layout identifier")

/-- Loop of `match_init_declarator_list` over one layout qualifier's
identifiers (shader_module.rs:215-229). -/
def foldVarLayoutIds :
    List LayoutQualifierSpec → VarLayoutAcc → Except Error VarLayoutAcc
  | [], acc => .ok acc
  | lq :: rest, acc =>
    match simplify_layout_qualifier lq with
    | .error e => .error e
    | .ok (name, maybe_value) =>
      match matchVariableLayoutId name maybe_value acc with
      | .error e => .error e
      | .ok acc' => foldVarLayoutIds rest acc'

/-- Loop of `match_init_declarator_list` over the type qualifier specs
(shader_module.rs:206-236). A `const` storage qualifier early-returns
`Ok(None)` (the declaration is skipped); `uniform` is accepted; a layout
qualifier updates the accumulator; anything else is an error. -/
def matchVarQuals :
    List TypeQualifierSpec → VarLayoutAcc → Except Error (Option VarLayoutAcc)
  | [], acc => .ok (some acc)
  | .Storage .Const :: _, _ => .ok none
  | .Storage .Uniform :: rest, acc => matchVarQuals rest acc
  | .Layout ids :: rest, acc =>
    match foldVarLayoutIds ids acc with
    | .error e => .error e
    | .ok acc' => matchVarQuals rest acc'
  | _ :: _, _ =>
    .error (Error.Local "Unexpected variable type qualifier spec")

/-- Mirror of `match_init_declarator_list` (shader_module.rs:170-274): unpack
the head declaration, require a type qualifier, run the qualifier loop (which
may skip `const` declarations), then reject inner array specifiers, missing
names, array specifiers, initializers and non-empty tails. -/
def match_init_declarator_list (idl : InitDeclaratorList) :
    Except Error (Option VariableDeclaration) :=
  match idl.head.ty.qualifier with
  | none => .error (Error.Local "Unexpected type qualifier")
  | some tq =>
    match matchVarQuals tq.qualifiers ⟨none, none, none⟩ with
    | .error e => .error e
    | .ok none => .ok none
    | .ok (some acc) =>
      if idl.head.ty.ty.array_specifier.isSome then
        .error (Error.Local "Unexpected inner array specifier")
      else
        match idl.head.name with
        | none => .error (Error.Local "Unexpected variable name")
        | some name =>
          if idl.head.array_specifier.isSome then
            .error (Error.Local "Unexpected array specifier")
          else if idl.head.init.isSome then
            .error (Error.Local "Unexpected initializer")
          else if idl.tail ≠ [] then
            .error (Error.Local "Unexpected tail")
          else
            .ok (some ⟨name, idl.head.ty.ty.ty, acc.binding, acc.set,
              acc.type_format⟩)

/-- Mirror of `BlockField` (shader_module.rs:276-282); the source field names
carry a leading underscore (`_name`, `_offset`, `_dimensions`). -/
structure BlockField where
  name : String
  type_specifier : TypeSpecifierNonArray
  offset : Option Int
  dimensions : Option (List (Option Int))
deriving DecidableEq

/-- Mirror of `BlockField::byte_size` (shader_module.rs:284-316). The listed
type tags yield `Some(size)`; every other tag hits a `panic!` in the source,
modelled as the `.error` side carrying the panic message. Sizes are small
constants, so `u32` overflow cannot occur and sizes are plain naturals. -/
def BlockField.byte_size (f : BlockField) : Except String (Option Nat) :=
  match f.type_specifier with
  | .Void => .ok (some 1)
  | .Bool => .ok (some 1)
  | .Int => .ok (some 4)
  | .UInt => .ok (some 4)
  | .Float => .ok (some 4)
  | .Double => .ok (some 8)
  | .Vec2 => .ok (some 8)
  | .Vec3 => .ok (some 12)
  | .Vec4 => .ok (some 16)
  | .IVec2 => .ok (some 8)
  | .IVec3 => .ok (some 12)
  | .IVec4 => .ok (some 16)
  | .UVec2 => .ok (some 8)
  | .UVec3 => .ok (some 12)
  | .UVec4 => .ok (some 16)
  | .Mat2 => .ok (some (4 * 4))
  | .Mat3 => .ok (some (9 * 4))
  | .Mat4 => .ok (some (16 * 4))
  | .Mat23 => .ok (some (6 * 4))
  | .Mat24 => .ok (some (8 * 4))
  | .Mat32 => .ok (some (6 * 4))
  | .Mat34 => .ok (some (12 * 4))
  | .Mat42 => .ok (some (8 * 4))
  | .Mat43 => .ok (some (12 * 4))
  | _ => .error "Haven't implemented size map for type"

/-- One arm of the layout-identifier match inside `match_block_field`
(shader_module.rs:340-349): only `offset` with an int value is accepted. -/
def matchFieldLayoutId (name : String) (maybe_value : Option Expr)
    (_acc : Option Int) : Except Error (Option Int) :=
  match name, maybe_value with
  | "offset", some (.IntConst v) => .ok (some v)
  | _, _ => .error (Error.Local "Unexpected layout identifier")

/-- Loop of `match_block_field` over one layout qualifier's identifiers. -/
def foldFieldLayoutIds :
    List LayoutQualifierSpec → Option Int → Except Error (Option Int)
  | [], acc => .ok acc
  | lq :: rest, acc =>
    match simplify_layout_qualifier lq with
    | .error e => .error e
    | .ok (name, maybe_value) =>
      match matchFieldLayoutId name maybe_value acc with
      | .error e => .error e
      | .ok acc' => foldFieldLayoutIds rest acc'

/-- Loop of `match_block_field` over the (optional) type qualifier specs
(shader_module.rs:331-358): only layout qualifiers are accepted. -/
def matchFieldQuals :
    List TypeQualifierSpec → Option Int → Except Error (Option Int)
  | [], acc => .ok acc
  | .Layout ids :: rest, acc =>
    match foldFieldLayoutIds ids acc with
    | .error e => .error e
    | .ok acc' => matchFieldQuals rest acc'
  | _ :: _, _ =>
    .error (Error.Local "Unexpected block field type qualifier spec")

/-- Dimension extraction of `match_block_field` (shader_module.rs:376-393):
explicitly sized dimensions must be int constants, unsized ones become
`none`. -/
def matchFieldDimension (d : ArraySpecifierDimension) :
    Except Error (Option Int) :=
  match d with
  | .ExplicitlySized (.IntConst v) => .ok (some v)
  | .ExplicitlySized _ => .error (Error.Local "Unexpected array dimension value")
  | .Unsized => .ok none

/-- Mirror of the traversal of all dimensions of one array specifier. -/
def matchFieldDimensions :
    List ArraySpecifierDimension → Except Error (List (Option Int))
  | [] => .ok []
  | d :: rest =>
    match matchFieldDimension d with
    | .error e => .error e
    | .ok o =>
      match matchFieldDimensions rest with
      | .error e => .error e
      | .ok os => .ok (o :: os)

/-- Mirror of `match_block_field` (shader_module.rs:318-410). -/
def match_block_field (bf : StructFieldSpecifier) : Except Error BlockField :=
  let offsetRes :=
    match bf.qualifier with
    | some tq => matchFieldQuals tq.qualifiers none
    | none => .ok none
  match offsetRes with
  | .error e => .error e
  | .ok offset =>
    if bf.ty.array_specifier.isSome then
      .error (Error.Local "Unexpected type array specifier")
    else
      match bf.identifiers with
      | [ai] =>
        match ai.array_spec with
        | some asp =>
          match matchFieldDimensions asp.dimensions with
          | .error e => .error e
          | .ok dims => .ok ⟨ai.ident, bf.ty.ty, offset, some dims⟩
        | none => .ok ⟨ai.ident, bf.ty.ty, offset, none⟩
      | _ => .error (Error.Local "Unexpected identifiers")

/-- Mirror of `BlockDeclaration` (shader_module.rs:412-421). -/
structure BlockDeclaration where
  name : String
  identifier : Option String
  storage : DescriptorType
  binding : Option Nat
  set : Option Nat
  layout_qualifiers : List String
  fields : List BlockField
deriving DecidableEq

/-- Mirror of `BlockDeclaration::byte_size` (shader_module.rs:424-428):
`fields.iter().fold(Some(0), |acc, item| acc.and_then(|acc|
item.byte_size().map(|item| acc + item)))`. The outer `Except` carries a
panic raised by a field's `byte_size`; as in Rust's `Option::and_then`, a
`none` accumulator short-circuits without evaluating the next field. -/
def blockSizeStep (acc : Except String (Option Nat)) (item : BlockField) :
    Except String (Option Nat) :=
  match acc with
  | .error e => .error e
  | .ok none => .ok none
  | .ok (some a) =>
    match item.byte_size with
    | .error e => .error e
    | .ok none => .ok none
    | .ok (some s) => .ok (some (a + s))

/-- Mirror of `BlockDeclaration::byte_size` continued: the fold itself. -/
def BlockDeclaration.byte_size (b : BlockDeclaration) :
    Except String (Option Nat) :=
  b.fields.foldl blockSizeStep (.ok (some 0))

/-- Mirror of `BlockDeclaration::checked_set` (shader_module.rs:430-435);
like `VariableDeclaration.checked_set`, the `warn!` is the Boolean flag. -/
def BlockDeclaration.checked_set (b : BlockDeclaration) : Nat × Bool :=
  match b.set with
  | some s => (s, false)
  | none => (0, true)

/-- Accumulator of the qualifier loop of `match_block` (the mutable locals
`storage`, `binding`, `set`, `layout_qualifiers` of shader_module.rs:465-468). -/
structure BlockAcc where
  storage : Option DescriptorType
  binding : Option Nat
  set : Option Nat
  layout_qualifiers : List String
deriving DecidableEq

/-- One arm of the `match (name, maybe_value)` in `match_block`
(shader_module.rs:487-499): `binding`/`set` take int values,
`push_constant`/`std140` take no value and are appended to the qualifier
list, everything else is an error. -/
def matchBlockLayoutId (name : String) (maybe_value : Option Expr)
    (acc : BlockAcc) : Except Error BlockAcc :=
  match name, maybe_value with
  | "binding", some (.IntConst v) => .ok { acc with binding := some (u32ofInt v) }
  | "push_constant", none =>
    .ok { acc with layout_qualifiers := acc.layout_qualifiers ++ ["push_constant"] }
  | "std140", none =>
    .ok { acc with layout_qualifiers := acc.layout_qualifiers ++ ["std140"] }
  | "set", some (.IntConst v) => .ok { acc with set := some (usizeOfInt v) }
  | _, _ => .error (Error.Local "Unexpected layout identifier")

/-- Loop of `match_block` over one layout qualifier's identifiers. -/
def foldBlockLayoutIds :
    List LayoutQualifierSpec → BlockAcc → Except Error BlockAcc
  | [], acc => .ok acc
  | lq :: rest, acc =>
    match simplify_layout_qualifier lq with
    | .error e => .error e
    | .ok (name, maybe_value) =>
      match matchBlockLayoutId name maybe_value acc with
      | .error e => .error e
      | .ok acc' => foldBlockLayoutIds rest acc'

/-- Loop of `match_block` over the type qualifier specs
(shader_module.rs:470-507): a storage qualifier sets the descriptor type
(`uniform` or `buffer`, all others are errors), a layout qualifier updates
the accumulator, anything else is an error. -/
def matchBlockQuals :
    List TypeQualifierSpec → BlockAcc → Except Error BlockAcc
  | [], acc => .ok acc
  | .Storage q :: rest, acc =>
    match q with
    | .Uniform => matchBlockQuals rest { acc with storage := some .UNIFORM_BUFFER }
    | .Buffer => matchBlockQuals rest { acc with storage := some .STORAGE_BUFFER }
    | _ => .error (Error.Local "Unexpected storage qualifier")
  | .Layout ids :: rest, acc =>
    match foldBlockLayoutIds ids acc with
    | .error e => .error e
    | .ok acc' => matchBlockQuals rest acc'
  | _ :: _, _ =>
    .error (Error.Local "Unexpected block type qualifier spec")

/-- Traversal of the block fields of `match_block`
(`fields.iter().map(match_block_field).collect()`). -/
def matchBlockFields :
    List StructFieldSpecifier → Except Error (List BlockField)
  | [] => .ok []
  | f :: rest =>
    match match_block_field f with
    | .error e => .error e
    | .ok bf =>
      match matchBlockFields rest with
      | .error e => .error e
      | .ok bfs => .ok (bf :: bfs)

/-- Mirror of `match_block` (shader_module.rs:438-525): unpack the name, the
optional instance identifier (an array spec on it is an error), run the
qualifier loop, require a storage qualifier, and convert every field. -/
def match_block (blk : Block) : Except Error BlockDeclaration :=
  let identRes : Except Error (Option String) :=
    match blk.identifier with
    | some ai =>
      if ai.array_spec.isSome then .error (Error.Local "Unexpected array spec")
      else .ok (some ai.ident)
    | none => .ok none
  match identRes with
  | .error e => .error e
  | .ok identifier =>
    match matchBlockQuals blk.qualifier.qualifiers ⟨none, none, none, []⟩ with
    | .error e => .error e
    | .ok acc =>
      match acc.storage with
      | none => .error (Error.Local "No storage qualifier found")
      | some storage =>
        match matchBlockFields blk.fields with
        | .error e => .error e
        | .ok fields =>
          .ok ⟨blk.name, identifier, storage, acc.binding, acc.set,
            acc.layout_qualifiers, fields⟩

/-- Result triple of `analyze_shader` (`ShaderIO` in shader_module.rs:528). -/
abbrev ShaderInfo :=
  LocalSize × List VariableDeclaration × List BlockDeclaration

/-- Loop of `analyze_shader` over the external declarations
(shader_module.rs:541-564), with the three mutable locals `local_size`,
`declarations` and `blocks` made explicit. A `Global` declaration replaces
the local size wholesale; init declarator lists append a variable declaration
when one is produced; blocks are appended; precision declarations, function
prototypes, preprocessor directives and function definitions are ignored. -/
def analyzeGo :
    List ExternalDeclaration → LocalSize → List VariableDeclaration →
    List BlockDeclaration → Except Error ShaderInfo
  | [], ls, vars, blocks => .ok (ls, vars, blocks)
  | .Declaration d :: rest, ls, vars, blocks =>
    match d with
    | .Global tq global_names =>
      match match_globals tq global_names with
      | .error e => .error e
      | .ok ls' => analyzeGo rest ls' vars blocks
    | .InitDeclaratorList idl =>
      match match_init_declarator_list idl with
      | .error e => .error e
      | .ok none => analyzeGo rest ls vars blocks
      | .ok (some v) => analyzeGo rest ls (vars ++ [v]) blocks
    | .Block b =>
      match match_block b with
      | .error e => .error e
      | .ok bd => analyzeGo rest ls vars (blocks ++ [bd])
    | .Precision => analyzeGo rest ls vars blocks
    | .FunctionPrototype => analyzeGo rest ls vars blocks
  | .Preprocessor :: rest, ls, vars, blocks => analyzeGo rest ls vars blocks
  | .FunctionDefinition :: rest, ls, vars, blocks => analyzeGo rest ls vars blocks

/-- Mirror of `analyze_shader` (shader_module.rs:530-567) over an already
parsed translation unit (file reading and text parsing are external IO and
not part of the embedding): the local size starts at (1,1,1). -/
def analyze_shader (decls : List ExternalDeclaration) :
    Except Error ShaderInfo :=
  analyzeGo decls (1, 1, 1) [] []

/-- Mirror of the part of `vk::DescriptorSetLayoutBinding` that
`DescriptorPool::new` reads (descriptor_pool.rs:37-41): only
`descriptor_type` is inspected; the binding index is carried along. -/
structure DescriptorSetLayoutBinding where
  binding : Nat
  descriptor_type : DescriptorType
deriving DecidableEq

/-- Lookup in an association list. This models `HashMap::get` of
`DescriptorPool::new`; the `HashMap` is modelled as an association list with
unique keys. -/
def assocGet : List (DescriptorType × Nat) → DescriptorType → Option Nat
  | [], _ => none
  | (k, v) :: rest, t => if k = t then some v else assocGet rest t

/-- Insert-or-replace in an association list (models `HashMap::insert`). -/
def assocInsert :
    List (DescriptorType × Nat) → DescriptorType → Nat →
    List (DescriptorType × Nat)
  | [], k, v => [(k, v)]
  | (k', v') :: rest, k, v =>
    if k' = k then (k, v) :: rest else (k', v') :: assocInsert rest k v

/-- Mirror of the accumulation loop of `DescriptorPool::new`
(descriptor_pool.rs:36-42): count the bindings of each descriptor type. -/
def accumulate_bindings (bs : List DescriptorSetLayoutBinding) :
    List (DescriptorType × Nat) :=
  bs.foldl
    (fun m b =>
      assocInsert m b.descriptor_type
        ((assocGet m b.descriptor_type).getD 0 + 1))
    []

/-- Mirror of `vk::DescriptorPoolSize`. -/
structure DescriptorPoolSize where
  ty : DescriptorType
  descriptor_count : Nat
deriving DecidableEq

/-- The observable content of the single `vk::DescriptorPoolCreateInfo` that
`DescriptorPool::new` builds (descriptor_pool.rs:52-54): the pool sizes and
`max_sets`. -/
structure DescriptorPoolCreateInfo where
  pool_sizes : List DescriptorPoolSize
  max_sets : Nat
deriving DecidableEq

/-- Mirror of `DescriptorPool::new` (descriptor_pool.rs:27-62): one pool is
created whose size for each accumulated descriptor type is
`count * set_count` and whose `max_sets` is `set_count`. -/
def DescriptorPool.new (bs : List DescriptorSetLayoutBinding)
    (set_count : Nat) : DescriptorPoolCreateInfo :=
  { pool_sizes :=
      (accumulate_bindings bs).map (fun p => ⟨p.1, p.2 * set_count⟩),
    max_sets := set_count }

/-- The pool's descriptor count for a given type: the count of the (unique)
pool-size entry for that type, if any. -/
def poolSizeOf (info : DescriptorPoolCreateInfo) (t : DescriptorType) :
    Option Nat :=
  (info.pool_sizes.find? (fun ps => decide (ps.ty = t))).map
    (fun ps => ps.descriptor_count)

/-- Number of bindings of a given descriptor type. -/
def countType (bs : List DescriptorSetLayoutBinding) (t : DescriptorType) :
    Nat :=
  bs.countP (fun b => decide (b.descriptor_type = t))

/-- Modelled from the spec: the device-level allocation state on which
`MultiBuffer::new` acts. `Buffer::new` / `DeviceMemory::new` /
`MemoryMapping::new` and the Drop impls of `Buffer` and `MemoryMapping` are
not under src/ (only `DeviceMemory`'s Drop is visible, freeing its memory);
following the spec, each of the three acquisitions is a fallible primitive
that registers one live allocation, released again by the wrapper's drop.
`calls` counts primitive device calls and doubles as a fresh-id supply. -/
structure AllocState where
  calls : Nat
  live : List Nat
deriving DecidableEq

/-- Modelled from the spec: a fallible device acquisition
(`Buffer::new`, `DeviceMemory::new`, `MemoryMapping::new`). The oracle `o`
says whether the n-th device call fails; a failed call acquires nothing. -/
def primAlloc (o : Nat → Bool) (s : AllocState) : Option Nat × AllocState :=
  if o s.calls then (none, { calls := s.calls + 1, live := s.live })
  else (some s.calls, { calls := s.calls + 1, live := s.calls :: s.live })

/-- Modelled from the spec: a fallible device call that acquires nothing
(`bind_buffer_memory` in `MultiBufferUnit::new`). -/
def primCall (o : Nat → Bool) (s : AllocState) : Bool × AllocState :=
  (!(o s.calls), { calls := s.calls + 1, live := s.live })

/-- Modelled from the spec: dropping an acquisition releases it (Rust Drop of
`Buffer`, `DeviceMemory`, `MemoryMapping`). -/
def primFree (id : Nat) (s : AllocState) : AllocState :=
  { calls := s.calls, live := s.live.filter (fun x => x ≠ id) }

/-- Mirror of `MultiBufferUnit` (multi_buffer.rs:16-20): the ids of its
buffer, device memory and host mapping. -/
structure MultiBufferUnit where
  buffer : Nat
  memory : Nat
  mapping : Nat
deriving DecidableEq

/-- Rust drop of a `MultiBufferUnit`: releases all three acquisitions. -/
def MultiBufferUnit.drop (u : MultiBufferUnit) (s : AllocState) : AllocState :=
  primFree u.mapping (primFree u.memory (primFree u.buffer s))

/-- Mirror of `MultiBufferUnit::new` (multi_buffer.rs:23-44): buffer, then
memory, then mapping are acquired in order; an early `?` return drops the
locals already created; the final `bind_buffer_memory` may also fail, in
which case all three are dropped. -/
def MultiBufferUnit.new (o : Nat → Bool) (s : AllocState) :
    Option MultiBufferUnit × AllocState :=
  match primAlloc o s with
  | (none, s1) => (none, s1)
  | (some buf, s1) =>
    match primAlloc o s1 with
    | (none, s2) => (none, primFree buf s2)
    | (some mem, s2) =>
      match primAlloc o s2 with
      | (none, s3) => (none, primFree mem (primFree buf s3))
      | (some mapping, s3) =>
        match primCall o s3 with
        | (false, s4) =>
          (none, primFree mapping (primFree mem (primFree buf s4)))
        | (true, s4) => (some ⟨buf, mem, mapping⟩, s4)

/-- Rust drop of a vector of units (the partially collected `Vec` that a
failed `collect::<Result<Vec<_>, _>>()` in `MultiBuffer::new` discards). -/
def dropUnits : List MultiBufferUnit → AllocState → AllocState
  | [], s => s
  | u :: rest, s => dropUnits rest (u.drop s)

/-- Loop of `MultiBuffer::new` (multi_buffer.rs:67-69): create `k` more
units; on the first failure the already-collected units are dropped and the
error is returned. The accumulator is kept reversed and restored at the
end. -/
def multiBufferGo (o : Nat → Bool) :
    Nat → List MultiBufferUnit → AllocState →
    Option (List MultiBufferUnit) × AllocState
  | 0, acc, s => (some acc.reverse, s)
  | k + 1, acc, s =>
    match MultiBufferUnit.new o s with
    | (none, s') => (none, dropUnits acc s')
    | (some u, s') => multiBufferGo o k (u :: acc) s'

/-- Mirror of `MultiBuffer::new` (multi_buffer.rs:60-71). -/
def MultiBuffer.new (o : Nat → Bool) (num_buffers : Nat) (s : AllocState) :
    Option (List MultiBufferUnit) × AllocState :=
  multiBufferGo o num_buffers [] s

/-- Mirror of `MultiBuffer::mapped` (multi_buffer.rs:73-75):
`**self[index].mapping`. Rust slice indexing out of bounds panics; the panic
is the `.error` side. -/
def MultiBuffer.mapped (units : List MultiBufferUnit) (index : Nat) :
    Except String Nat :=
  if h : index < units.length then .ok (units.get ⟨index, h⟩).mapping
  else .error "index out of bounds"

/-- Well-formedness of an allocation state: every live id was produced by a
past call. -/
def AllocWF (s : AllocState) : Prop := ∀ x ∈ s.live, x < s.calls

/-- Ids held by a reversed accumulator of units. -/
def unitIds : List MultiBufferUnit → List Nat
  | [] => []
  | u :: rest => u.mapping :: u.memory :: u.buffer :: unitIds rest

/-- Layout identifier list built from optional per-axis values, used to state
the per-axis override behavior of the workgroup shape. -/
def axisIds (vx vy vz : Option Int) : List LayoutQualifierSpec :=
  (vx.toList.map (fun v => .Identifier "local_size_x" (some (.IntConst v)))) ++
  (vy.toList.map (fun v => .Identifier "local_size_y" (some (.IntConst v)))) ++
  (vz.toList.map (fun v => .Identifier "local_size_z" (some (.IntConst v))))

/-- The axis value a specified-or-absent layout entry yields: the converted
value when present, 1 when absent. -/
def axisVal (o : Option Int) : Nat :=
  match o with
  | none => 1
  | some v => u32ofInt v

theorem analyzeGo_append (rest : List ExternalDeclaration) :
    ∀ (ds : List ExternalDeclaration) (ls : LocalSize)
      (vs : List VariableDeclaration) (bs : List BlockDeclaration)
      (ls' : LocalSize) (vs' : List VariableDeclaration)
      (bs' : List BlockDeclaration),
      analyzeGo ds ls vs bs = .ok (ls', vs', bs') →
      analyzeGo (ds ++ rest) ls vs bs = analyzeGo rest ls' vs' bs' := by
  intro ds
  induction ds with
  | nil =>
    intro ls vs bs ls' vs' bs' h
    simp only [analyzeGo, Except.ok.injEq, Prod.mk.injEq] at h
    obtain ⟨rfl, rfl, rfl⟩ := h
    rfl
  | cons d ds ih =>
    intro ls vs bs ls' vs' bs' h
    cases d with
    | Declaration dd =>
      cases dd with
      | Global tq global_names =>
        cases hg : match_globals tq global_names with
        | error e => simp [analyzeGo, hg] at h
        | ok v =>
          simp only [analyzeGo, hg] at h
          simpa [analyzeGo, hg] using ih _ _ _ _ _ _ h
      | InitDeclaratorList idl =>
        cases hm : match_init_declarator_list idl with
        | error e => simp [analyzeGo, hm] at h
        | ok ov =>
          cases ov with
          | none =>
            simp only [analyzeGo, hm] at h
            simpa [analyzeGo, hm] using ih _ _ _ _ _ _ h
          | some v =>
            simp only [analyzeGo, hm] at h
            simpa [analyzeGo, hm] using ih _ _ _ _ _ _ h
      | Block b =>
        cases hb : match_block b with
        | error e => simp [analyzeGo, hb] at h
        | ok bd =>
          simp only [analyzeGo, hb] at h
          simpa [analyzeGo, hb] using ih _ _ _ _ _ _ h
      | Precision =>
        simp only [analyzeGo] at h
        simpa [analyzeGo] using ih _ _ _ _ _ _ h
      | FunctionPrototype =>
        simp only [analyzeGo] at h
        simpa [analyzeGo] using ih _ _ _ _ _ _ h
    | Preprocessor =>
      simp only [analyzeGo] at h
      simpa [analyzeGo] using ih _ _ _ _ _ _ h
    | FunctionDefinition =>
      simp only [analyzeGo] at h
      simpa [analyzeGo] using ih _ _ _ _ _ _ h

theorem analyzeGo_no_global :
    ∀ (ds : List ExternalDeclaration) (ls : LocalSize)
      (vs : List VariableDeclaration) (bs : List BlockDeclaration)
      (ls' : LocalSize) (vs' : List VariableDeclaration)
      (bs' : List BlockDeclaration),
      analyzeGo ds ls vs bs = .ok (ls', vs', bs') →
      (∀ tq ns, ExternalDeclaration.Declaration (.Global tq ns) ∉ ds) →
      ls' = ls := by
  intro ds
  induction ds with
  | nil =>
    intro ls vs bs ls' vs' bs' h _
    simp only [analyzeGo, Except.ok.injEq, Prod.mk.injEq] at h
    exact h.1.symm
  | cons d ds ih =>
    intro ls vs bs ls' vs' bs' h hng
    have hng' : ∀ tq ns,
        ExternalDeclaration.Declaration (.Global tq ns) ∉ ds :=
      fun tq ns hmem => hng tq ns (List.mem_cons_of_mem _ hmem)
    cases d with
    | Declaration dd =>
      cases dd with
      | Global tq global_names =>
        exact absurd (List.mem_cons_self _ _) (fun c => hng tq global_names c)
      | InitDeclaratorList idl =>
        cases hm : match_init_declarator_list idl with
        | error e => simp [analyzeGo, hm] at h
        | ok ov =>
          cases ov with
          | none =>
            simp only [analyzeGo, hm] at h
            exact ih _ _ _ _ _ _ h hng'
          | some v =>
            simp only [analyzeGo, hm] at h
            exact ih _ _ _ _ _ _ h hng'
      | Block b =>
        cases hb : match_block b with
        | error e => simp [analyzeGo, hb] at h
        | ok bd =>
          simp only [analyzeGo, hb] at h
          exact ih _ _ _ _ _ _ h hng'
      | Precision =>
        simp only [analyzeGo] at h
        exact ih _ _ _ _ _ _ h hng'
      | FunctionPrototype =>
        simp only [analyzeGo] at h
        exact ih _ _ _ _ _ _ h hng'
    | Preprocessor =>
      simp only [analyzeGo] at h
      exact ih _ _ _ _ _ _ h hng'
    | FunctionDefinition =>
      simp only [analyzeGo] at h
      exact ih _ _ _ _ _ _ h hng'

/-- C3 counterexample: the claim says a shader with no `in`-qualified global
declaration yields shape (1,1,1); but `match_globals` never requires the
`in` storage qualifier (its arm is a no-op accept), so a layout-only global
`layout(local_size_x=64);` — whose qualifier list provably contains no `in`
storage qualifier — is accepted and sets the shape to (64,1,1). -/
theorem c3_counterexample_layout_only_global :
    TypeQualifierSpec.Storage .In ∉
      [TypeQualifierSpec.Layout
        [.Identifier "local_size_x" (some (.IntConst 64))]] ∧
    analyze_shader [.Declaration (.Global
      ⟨[.Layout [.Identifier "local_size_x" (some (.IntConst 64))]]⟩ [])] =
      .ok ((64, 1, 1), [], []) :=
  ⟨by decide, rfl⟩

/-- C3 amended: a shader with no workgroup-shape global declaration at all
(the reflector accepts a workgroup global with or without the `in`
qualifier) yields workgroup shape (1,1,1); a global specifying only
`local_size_x=64` yields (64,1,1); in general each of
`local_size_x`/`local_size_y`/`local_size_z` overrides only its own axis and
unspecified axes remain 1. -/
theorem c3_workgroup_shape_defaulting :
    (∀ (ds : List ExternalDeclaration) (ls : LocalSize)
       (vs : List VariableDeclaration) (bs : List BlockDeclaration),
       analyze_shader ds = .ok (ls, vs, bs) →
       (∀ tq ns, ExternalDeclaration.Declaration (.Global tq ns) ∉ ds) →
       ls = (1, 1, 1)) ∧
    analyze_shader [.Declaration (.Global ⟨[.Storage .In,
      .Layout [.Identifier "local_size_x" (some (.IntConst 64))]]⟩ [])] =
      .ok ((64, 1, 1), [], []) ∧
    (∀ vx vy vz : Option Int,
      match_globals ⟨[.Storage .In, .Layout (axisIds vx vy vz)]⟩ [] =
        .ok (axisVal vx, axisVal vy, axisVal vz)) := by
  refine ⟨?_, by rfl, ?_⟩
  · intro ds ls vs bs h hng
    exact analyzeGo_no_global ds (1, 1, 1) [] [] ls vs bs h hng
  · intro vx vy vz
    rcases vx with _ | a <;> rcases vy with _ | b <;> rcases vz with _ | c <;>
      rfl

theorem c3_workgroup_shape_defaulting_witness :
    ((1, 1, 1) : LocalSize) = (1, 1, 1) :=
  c3_workgroup_shape_defaulting.1 [.Preprocessor] (1, 1, 1) [] [] rfl
    (by intro tq ns hmem; simp at hmem)

/-- C2 counterexample: the claim says a shader declaring more than one
workgroup-shape (`in`-qualified) global fails analysis; in fact a shader with
two such globals is analyzed successfully, the second one's shape winning. -/
theorem c2_counterexample_two_globals_accepted :
    analyze_shader
      [.Declaration (.Global ⟨[.Storage .In,
         .Layout [.Identifier "local_size_x" (some (.IntConst 2))]]⟩ []),
       .Declaration (.Global ⟨[.Storage .In,
         .Layout [.Identifier "local_size_x" (some (.IntConst 4))]]⟩ [])] =
      .ok ((4, 1, 1), [], []) := by rfl

/-- C2 amended: shader analysis does not reject multiple workgroup-shape
globals; every such global is still matched (a malformed one fails the
load), and the workgroup shape produced by the last one replaces any earlier
shape wholesale. -/
theorem c2_amended_last_global_wins
    (ds : List ExternalDeclaration) (tq : TypeQualifier) (ns : List String)
    (ls v : LocalSize) (vs : List VariableDeclaration)
    (bs : List BlockDeclaration)
    (h1 : analyze_shader ds = .ok (ls, vs, bs))
    (h2 : match_globals tq ns = .ok v) :
    analyze_shader (ds ++ [.Declaration (.Global tq ns)]) = .ok (v, vs, bs) := by
  unfold analyze_shader at h1 ⊢
  rw [analyzeGo_append _ ds _ _ _ _ _ _ h1]
  simp [analyzeGo, h2]

theorem c2_amended_last_global_wins_witness :
    analyze_shader [.Declaration (.Global ⟨[.Storage .In,
      .Layout [.Identifier "local_size_y" (some (.IntConst 8))]]⟩ [])] =
      .ok ((1, 8, 1), [], []) :=
  c2_amended_last_global_wins [] _ [] (1, 1, 1) (1, 8, 1) [] [] rfl rfl

/-- C1: the claim says an unsupported scalar/vector/matrix type tag makes the
field's byte size report `None` so that the block size resolves to unknown;
the code instead panics ("Haven't implemented size map for type ...") on such
a tag, both at the field level and — through the fold — at the block level,
so the `None` path for unknown types is never taken. -/
theorem c1_byte_size_panics_on_unsupported_tag :
    BlockField.byte_size ⟨"d", .DVec2, none, none⟩ =
      .error "Haven't implemented size map for type" ∧
    BlockDeclaration.byte_size ⟨"B", none, .UNIFORM_BUFFER, none, none, [],
      [⟨"a", .Float, none, none⟩, ⟨"d", .DVec2, none, none⟩]⟩ =
      .error "Haven't implemented size map for type" :=
  ⟨rfl, rfl⟩

/-- C5: resolving an absent set index yields set 0 together with the
"Assuming set=0" diagnostic (the Boolean flag), and an explicit set index is
returned exactly, with no diagnostic — for variable and block declarations
alike. -/
theorem c5_checked_set_default :
    (∀ d : VariableDeclaration,
      (d.set = none → d.checked_set = (0, true)) ∧
      (∀ s, d.set = some s → d.checked_set = (s, false))) ∧
    (∀ b : BlockDeclaration,
      (b.set = none → b.checked_set = (0, true)) ∧
      (∀ s, b.set = some s → b.checked_set = (s, false))) := by
  constructor
  · intro d
    constructor
    · intro h; simp [VariableDeclaration.checked_set, h]
    · intro s h; simp [VariableDeclaration.checked_set, h]
  · intro b
    constructor
    · intro h; simp [BlockDeclaration.checked_set, h]
    · intro s h; simp [BlockDeclaration.checked_set, h]

theorem c5_checked_set_default_witness :
    VariableDeclaration.checked_set ⟨"v", .Sampler2D, none, none, none⟩ =
      (0, true) ∧
    BlockDeclaration.checked_set ⟨"B", none, .UNIFORM_BUFFER, none, some 2,
      [], []⟩ = (2, false) :=
  ⟨(c5_checked_set_default.1 _).1 rfl,
   (c5_checked_set_default.2 _).2 2 rfl⟩

theorem blockFoldSum :
    ∀ (fields : List BlockField) (ns : List Nat) (a : Nat),
      fields.map BlockField.byte_size =
        ns.map (fun n => Except.ok (some n)) →
      fields.foldl blockSizeStep (.ok (some a)) = .ok (some (a + ns.sum)) := by
  intro fields
  induction fields with
  | nil =>
    intro ns a h
    have hns : ns = [] := by
      cases ns with
      | nil => rfl
      | cons n ns' => simp at h
    subst hns
    simp
  | cons f fs ih =>
    intro ns a h
    cases ns with
    | nil => simp at h
    | cons n ns' =>
      simp only [List.map_cons, List.cons.injEq] at h
      obtain ⟨h1, h2⟩ := h
      simp only [List.foldl_cons]
      have hstep : blockSizeStep (.ok (some a)) f = .ok (some (a + n)) := by
        simp [blockSizeStep, h1]
      rw [hstep, ih ns' (a + n) h2]
      have : a + n + ns'.sum = a + (n :: ns').sum := by
        simp [List.sum_cons]
        omega
      rw [this]

theorem byte_size_congr (f g : BlockField)
    (h : f.type_specifier = g.type_specifier) : f.byte_size = g.byte_size := by
  unfold BlockField.byte_size
  rw [h]

theorem blockFold_congr :
    ∀ (fs gs : List BlockField),
      fs.map (fun f => f.type_specifier) =
        gs.map (fun f => f.type_specifier) →
      ∀ acc, fs.foldl blockSizeStep acc = gs.foldl blockSizeStep acc := by
  intro fs
  induction fs with
  | nil =>
    intro gs h acc
    cases gs with
    | nil => rfl
    | cons g gs' => simp at h
  | cons f fs ih =>
    intro gs h acc
    cases gs with
    | nil => simp at h
    | cons g gs' =>
      simp only [List.map_cons, List.cons.injEq] at h
      obtain ⟨h1, h2⟩ := h
      simp only [List.foldl_cons]
      have hb : blockSizeStep acc f = blockSizeStep acc g := by
        unfold blockSizeStep
        rw [byte_size_congr f g h1]
      rw [hb]
      exact ih gs' h2 _

/-- C4: when every field of a block has a known byte size, the block's byte
size is exactly the sum of the fields' byte sizes; a field's byte size does
not depend on its recorded offset, and the block's byte size depends only on
the fields' type tags (in particular not on any offsets). -/
theorem c4_block_byte_size_sum
    (b : BlockDeclaration) (ns : List Nat)
    (h : b.fields.map BlockField.byte_size =
      ns.map (fun n => Except.ok (some n))) :
    b.byte_size = .ok (some ns.sum) ∧
    (∀ (f : BlockField) (o : Option Int),
      BlockField.byte_size ⟨f.name, f.type_specifier, o, f.dimensions⟩ =
        f.byte_size) ∧
    (∀ b' : BlockDeclaration,
      b'.fields.map (fun f => f.type_specifier) =
        b.fields.map (fun f => f.type_specifier) →
      b'.byte_size = b.byte_size) := by
  refine ⟨?_, ?_, ?_⟩
  · have hs := blockFoldSum b.fields ns 0 h
    simpa [BlockDeclaration.byte_size] using hs
  · intro f o
    rfl
  · intro b' h'
    unfold BlockDeclaration.byte_size
    exact blockFold_congr b'.fields b.fields h' _

theorem c4_block_byte_size_sum_witness :
    BlockDeclaration.byte_size ⟨"B", some "b", .UNIFORM_BUFFER, none, none,
      [], [⟨"a", .Float, some 0, none⟩, ⟨"c", .Vec3, some 4, none⟩]⟩ =
      .ok (some 16) :=
  (c4_block_byte_size_sum ⟨"B", some "b", .UNIFORM_BUFFER, none, none, [],
    [⟨"a", .Float, some 0, none⟩, ⟨"c", .Vec3, some 4, none⟩]⟩ [4, 12] rfl).1

theorem matchGlobalsLayoutIds_ok_names :
    ∀ (ids : List LayoutQualifierSpec) (acc r : LocalSize),
      matchGlobalsLayoutIds ids acc = .ok r →
      ∀ name v, LayoutQualifierSpec.Identifier name v ∈ ids →
        name ∈ ["local_size_x", "local_size_y", "local_size_z"] := by
  intro ids
  induction ids with
  | nil =>
    intro acc r h name v hmem
    simp at hmem
  | cons lq rest ih =>
    intro acc r h name v hmem
    cases lq with
    | Shared => simp [matchGlobalsLayoutIds, simplify_layout_qualifier] at h
    | Identifier n mv =>
      simp only [matchGlobalsLayoutIds, simplify_layout_qualifier] at h
      split at h
      · by_cases hx : n = "local_size_x"
        · rw [if_pos hx] at h
          rcases List.mem_cons.mp hmem with heq | hmem'
          · cases heq
            simp [hx]
          · exact ih _ _ h name v hmem'
        · rw [if_neg hx] at h
          by_cases hy : n = "local_size_y"
          · rw [if_pos hy] at h
            rcases List.mem_cons.mp hmem with heq | hmem'
            · cases heq
              simp [hy]
            · exact ih _ _ h name v hmem'
          · rw [if_neg hy] at h
            by_cases hz : n = "local_size_z"
            · rw [if_pos hz] at h
              rcases List.mem_cons.mp hmem with heq | hmem'
              · cases heq
                simp [hz]
              · exact ih _ _ h name v hmem'
            · rw [if_neg hz] at h
              simp at h
      · simp at h

theorem matchGlobalsGo_ok_names :
    ∀ (specs : List TypeQualifierSpec) (acc r : LocalSize),
      matchGlobalsGo specs acc = .ok r →
      ∀ ids, TypeQualifierSpec.Layout ids ∈ specs →
      ∀ name v, LayoutQualifierSpec.Identifier name v ∈ ids →
        name ∈ ["local_size_x", "local_size_y", "local_size_z"] := by
  intro specs
  induction specs with
  | nil =>
    intro acc r h ids hids
    simp at hids
  | cons spec rest ih =>
    intro acc r h ids hids name v hmem
    cases spec with
    | Storage q =>
      cases q with
      | In =>
        simp only [matchGlobalsGo] at h
        rcases List.mem_cons.mp hids with heq | hids'
        · simp at heq
        · exact ih _ _ h _ hids' name v hmem
      | Const => simp [matchGlobalsGo] at h
      | Out => simp [matchGlobalsGo] at h
      | Uniform => simp [matchGlobalsGo] at h
      | Buffer => simp [matchGlobalsGo] at h
      | Shared => simp [matchGlobalsGo] at h
    | Layout lids =>
      cases hl : matchGlobalsLayoutIds lids acc with
      | error e => simp [matchGlobalsGo, hl] at h
      | ok acc2 =>
        simp only [matchGlobalsGo, hl] at h
        rcases List.mem_cons.mp hids with heq | hids'
        · cases heq
          exact matchGlobalsLayoutIds_ok_names _ _ _ hl name v hmem
        · exact ih _ _ h _ hids' name v hmem
    | Precise => simp [matchGlobalsGo] at h

theorem matchVariableLayoutId_ok_names (name : String) (mv : Option Expr)
    (acc acc' : VarLayoutAcc)
    (h : matchVariableLayoutId name mv acc = .ok acc') :
    name ∈ ["binding", "rgba32f", "set"] := by
  unfold matchVariableLayoutId at h
  split at h
  · simp_all
  · simp_all
  · simp_all
  · simp at h

theorem foldVarLayoutIds_ok_names :
    ∀ (ids : List LayoutQualifierSpec) (acc acc' : VarLayoutAcc),
      foldVarLayoutIds ids acc = .ok acc' →
      ∀ name v, LayoutQualifierSpec.Identifier name v ∈ ids →
        name ∈ ["binding", "rgba32f", "set"] := by
  intro ids
  induction ids with
  | nil =>
    intro acc acc' h name v hmem
    simp at hmem
  | cons lq rest ih =>
    intro acc acc' h name v hmem
    cases lq with
    | Shared => simp [foldVarLayoutIds, simplify_layout_qualifier] at h
    | Identifier n mv =>
      cases hid : matchVariableLayoutId n mv acc with
      | error e => simp [foldVarLayoutIds, simplify_layout_qualifier, hid] at h
      | ok acc2 =>
        simp only [foldVarLayoutIds, simplify_layout_qualifier, hid] at h
        rcases List.mem_cons.mp hmem with heq | hmem'
        · cases heq
          exact matchVariableLayoutId_ok_names _ _ _ _ hid
        · exact ih _ _ h name v hmem'

theorem matchVarQuals_ok_names :
    ∀ (specs : List TypeQualifierSpec) (acc : VarLayoutAcc)
      (x : Option VarLayoutAcc),
      matchVarQuals specs acc = .ok x →
      TypeQualifierSpec.Storage .Const ∉ specs →
      ∀ ids, TypeQualifierSpec.Layout ids ∈ specs →
      ∀ name v, LayoutQualifierSpec.Identifier name v ∈ ids →
        name ∈ ["binding", "rgba32f", "set"] := by
  intro specs
  induction specs with
  | nil =>
    intro acc x h hc ids hids
    simp at hids
  | cons spec rest ih =>
    intro acc x h hc ids hids name v hmem
    have hc' : TypeQualifierSpec.Storage .Const ∉ rest :=
      fun c => hc (List.mem_cons_of_mem _ c)
    cases spec with
    | Storage q =>
      cases q with
      | Const => exact absurd (List.mem_cons_self _ _) hc
      | Uniform =>
        simp only [matchVarQuals] at h
        rcases List.mem_cons.mp hids with heq | hids'
        · simp at heq
        · exact ih _ _ h hc' _ hids' name v hmem
      | In => simp [matchVarQuals] at h
      | Out => simp [matchVarQuals] at h
      | Buffer => simp [matchVarQuals] at h
      | Shared => simp [matchVarQuals] at h
    | Layout lids =>
      cases hf : foldVarLayoutIds lids acc with
      | error e => simp [matchVarQuals, hf] at h
      | ok acc2 =>
        simp only [matchVarQuals, hf] at h
        rcases List.mem_cons.mp hids with heq | hids'
        · cases heq
          exact foldVarLayoutIds_ok_names _ _ _ hf name v hmem
        · exact ih _ _ h hc' _ hids' name v hmem
    | Precise => simp [matchVarQuals] at h

theorem matchBlockLayoutId_ok_names (name : String) (mv : Option Expr)
    (acc acc' : BlockAcc)
    (h : matchBlockLayoutId name mv acc = .ok acc') :
    name ∈ ["binding", "push_constant", "std140", "set"] := by
  unfold matchBlockLayoutId at h
  split at h
  · simp_all
  · simp_all
  · simp_all
  · simp_all
  · simp at h

theorem foldBlockLayoutIds_ok_names :
    ∀ (ids : List LayoutQualifierSpec) (acc acc' : BlockAcc),
      foldBlockLayoutIds ids acc = .ok acc' →
      ∀ name v, LayoutQualifierSpec.Identifier name v ∈ ids →
        name ∈ ["binding", "push_constant", "std140", "set"] := by
  intro ids
  induction ids with
  | nil =>
    intro acc acc' h name v hmem
    simp at hmem
  | cons lq rest ih =>
    intro acc acc' h name v hmem
    cases lq with
    | Shared => simp [foldBlockLayoutIds, simplify_layout_qualifier] at h
    | Identifier n mv =>
      cases hid : matchBlockLayoutId n mv acc with
      | error e => simp [foldBlockLayoutIds, simplify_layout_qualifier, hid] at h
      | ok acc2 =>
        simp only [foldBlockLayoutIds, simplify_layout_qualifier, hid] at h
        rcases List.mem_cons.mp hmem with heq | hmem'
        · cases heq
          exact matchBlockLayoutId_ok_names _ _ _ _ hid
        · exact ih _ _ h name v hmem'

theorem matchBlockQuals_ok_names :
    ∀ (specs : List TypeQualifierSpec) (acc acc' : BlockAcc),
      matchBlockQuals specs acc = .ok acc' →
      ∀ ids, TypeQualifierSpec.Layout ids ∈ specs →
      ∀ name v, LayoutQualifierSpec.Identifier name v ∈ ids →
        name ∈ ["binding", "push_constant", "std140", "set"] := by
  intro specs
  induction specs with
  | nil =>
    intro acc acc' h ids hids
    simp at hids
  | cons spec rest ih =>
    intro acc acc' h ids hids name v hmem
    cases spec with
    | Storage q =>
      cases q with
      | Uniform =>
        simp only [matchBlockQuals] at h
        rcases List.mem_cons.mp hids with heq | hids'
        · simp at heq
        · exact ih _ _ h _ hids' name v hmem
      | Buffer =>
        simp only [matchBlockQuals] at h
        rcases List.mem_cons.mp hids with heq | hids'
        · simp at heq
        · exact ih _ _ h _ hids' name v hmem
      | Const => simp [matchBlockQuals] at h
      | In => simp [matchBlockQuals] at h
      | Out => simp [matchBlockQuals] at h
      | Shared => simp [matchBlockQuals] at h
    | Layout lids =>
      cases hf : foldBlockLayoutIds lids acc with
      | error e => simp [matchBlockQuals, hf] at h
      | ok acc2 =>
        simp only [matchBlockQuals, hf] at h
        rcases List.mem_cons.mp hids with heq | hids'
        · cases heq
          exact foldBlockLayoutIds_ok_names _ _ _ hf name v hmem
        · exact ih _ _ h _ hids' name v hmem
    | Precise => simp [matchBlockQuals] at h

theorem matchFieldLayoutId_ok_names (name : String) (mv : Option Expr)
    (acc acc' : Option Int)
    (h : matchFieldLayoutId name mv acc = .ok acc') :
    name = "offset" := by
  unfold matchFieldLayoutId at h
  split at h
  · simp_all
  · simp at h

theorem foldFieldLayoutIds_ok_names :
    ∀ (ids : List LayoutQualifierSpec) (acc acc' : Option Int),
      foldFieldLayoutIds ids acc = .ok acc' →
      ∀ name v, LayoutQualifierSpec.Identifier name v ∈ ids →
        name = "offset" := by
  intro ids
  induction ids with
  | nil =>
    intro acc acc' h name v hmem
    simp at hmem
  | cons lq rest ih =>
    intro acc acc' h name v hmem
    cases lq with
    | Shared => simp [foldFieldLayoutIds, simplify_layout_qualifier] at h
    | Identifier n mv =>
      cases hid : matchFieldLayoutId n mv acc with
      | error e => simp [foldFieldLayoutIds, simplify_layout_qualifier, hid] at h
      | ok acc2 =>
        simp only [foldFieldLayoutIds, simplify_layout_qualifier, hid] at h
        rcases List.mem_cons.mp hmem with heq | hmem'
        · cases heq
          exact matchFieldLayoutId_ok_names _ _ _ _ hid
        · exact ih _ _ h name v hmem'

theorem matchFieldQuals_ok_names :
    ∀ (specs : List TypeQualifierSpec) (acc acc' : Option Int),
      matchFieldQuals specs acc = .ok acc' →
      ∀ ids, TypeQualifierSpec.Layout ids ∈ specs →
      ∀ name v, LayoutQualifierSpec.Identifier name v ∈ ids →
        name = "offset" := by
  intro specs
  induction specs with
  | nil =>
    intro acc acc' h ids hids
    simp at hids
  | cons spec rest ih =>
    intro acc acc' h ids hids name v hmem
    cases spec with
    | Storage q => simp [matchFieldQuals] at h
    | Layout lids =>
      cases hf : foldFieldLayoutIds lids acc with
      | error e => simp [matchFieldQuals, hf] at h
      | ok acc2 =>
        simp only [matchFieldQuals, hf] at h
        rcases List.mem_cons.mp hids with heq | hids'
        · cases heq
          exact foldFieldLayoutIds_ok_names _ _ _ hf name v hmem
        · exact ih _ _ h _ hids' name v hmem
    | Precise => simp [matchFieldQuals] at h

theorem match_block_ok_quals (blk : Block) (bd : BlockDeclaration)
    (h : match_block blk = .ok bd) :
    ∃ acc, matchBlockQuals blk.qualifier.qualifiers ⟨none, none, none, []⟩ =
      .ok acc := by
  unfold match_block at h
  rcases hbi : blk.identifier with _ | ai
  · rw [hbi] at h
    cases hq : matchBlockQuals blk.qualifier.qualifiers ⟨none, none, none, []⟩ with
    | error e => simp [hq] at h
    | ok acc => exact ⟨acc, rfl⟩
  · rw [hbi] at h
    by_cases hsp : ai.array_spec.isSome
    · simp [hsp] at h
    · simp only [hsp, Bool.false_eq_true, if_false, ite_false] at h
      cases hq : matchBlockQuals blk.qualifier.qualifiers ⟨none, none, none, []⟩ with
      | error e => simp [hq] at h
      | ok acc => exact ⟨acc, rfl⟩

/-- C6 counterexample: the claim says any unrecognized identifier in any
layout qualifier of a single-variable declaration makes reflection fail; but
a `const`-qualified variable declaration whose `const` precedes the layout
qualifier is skipped before its layout is inspected, so the unknown
identifier `bogus` is silently ignored and reflection succeeds. -/
theorem c6_counterexample_const_layout_ignored :
    match_init_declarator_list ⟨⟨⟨some ⟨[.Storage .Const,
      .Layout [.Identifier "bogus" none]]⟩, ⟨.Float, none⟩⟩,
      some "x", none, none⟩, []⟩ = .ok none ∧
    analyze_shader [.Declaration (.InitDeclaratorList ⟨⟨⟨some ⟨[.Storage .Const,
      .Layout [.Identifier "bogus" none]]⟩, ⟨.Float, none⟩⟩,
      some "x", none, none⟩, []⟩)] = .ok ((1, 1, 1), [], []) :=
  ⟨rfl, rfl⟩

/-- C6 amended: an identifier the reflector does not recognize inside a
layout qualifier is a hard error for a workgroup-shape global, for a
non-`const` single-variable declaration, for a block declaration, and for a
block field — the sole exception being a single-variable declaration with a
`const` storage qualifier, which is skipped before its layout is examined. -/
theorem c6_amended_unknown_layout_identifier_errors :
    (∀ (tq : TypeQualifier) (ns : List String)
       (ids : List LayoutQualifierSpec) (name : String) (v : Option Expr),
       TypeQualifierSpec.Layout ids ∈ tq.qualifiers →
       LayoutQualifierSpec.Identifier name v ∈ ids →
       name ∉ ["local_size_x", "local_size_y", "local_size_z"] →
       ∃ e, match_globals tq ns = .error e) ∧
    (∀ (idl : InitDeclaratorList) (tq : TypeQualifier)
       (ids : List LayoutQualifierSpec) (name : String) (v : Option Expr),
       idl.head.ty.qualifier = some tq →
       TypeQualifierSpec.Storage .Const ∉ tq.qualifiers →
       TypeQualifierSpec.Layout ids ∈ tq.qualifiers →
       LayoutQualifierSpec.Identifier name v ∈ ids →
       name ∉ ["binding", "rgba32f", "set"] →
       ∃ e, match_init_declarator_list idl = .error e) ∧
    (∀ (blk : Block) (ids : List LayoutQualifierSpec) (name : String)
       (v : Option Expr),
       TypeQualifierSpec.Layout ids ∈ blk.qualifier.qualifiers →
       LayoutQualifierSpec.Identifier name v ∈ ids →
       name ∉ ["binding", "push_constant", "std140", "set"] →
       ∃ e, match_block blk = .error e) ∧
    (∀ (bf : StructFieldSpecifier) (tq : TypeQualifier)
       (ids : List LayoutQualifierSpec) (name : String) (v : Option Expr),
       bf.qualifier = some tq →
       TypeQualifierSpec.Layout ids ∈ tq.qualifiers →
       LayoutQualifierSpec.Identifier name v ∈ ids →
       name ≠ "offset" →
       ∃ e, match_block_field bf = .error e) := by
  refine ⟨?_, ?_, ?_, ?_⟩
  · intro tq ns ids name v hids hmem hname
    cases hr : match_globals tq ns with
    | error e => exact ⟨e, rfl⟩
    | ok r =>
      exact absurd
        (matchGlobalsGo_ok_names tq.qualifiers (1, 1, 1) r hr ids hids
          name v hmem) hname
  · intro idl tq ids name v hq hc hids hmem hname
    cases hv : matchVarQuals tq.qualifiers ⟨none, none, none⟩ with
    | error e =>
      refine ⟨e, ?_⟩
      simp [match_init_declarator_list, hq, hv]
    | ok x =>
      exact absurd
        (matchVarQuals_ok_names tq.qualifiers _ x hv hc ids hids name v hmem)
        hname
  · intro blk ids name v hids hmem hname
    cases hr : match_block blk with
    | error e => exact ⟨e, rfl⟩
    | ok bd =>
      obtain ⟨acc, hq⟩ := match_block_ok_quals blk bd hr
      exact absurd
        (matchBlockQuals_ok_names blk.qualifier.qualifiers _ acc hq ids hids
          name v hmem) hname
  · intro bf tq ids name v hq hids hmem hname
    cases hf : matchFieldQuals tq.qualifiers none with
    | error e =>
      refine ⟨e, ?_⟩
      simp [match_block_field, hq, hf]
    | ok acc =>
      exact absurd
        (matchFieldQuals_ok_names tq.qualifiers none acc hf ids hids
          name v hmem) hname

theorem c6_amended_unknown_layout_identifier_errors_witness :
    ∃ e, match_globals ⟨[.Storage .In,
      .Layout [.Identifier "foo" (some (.IntConst 1))]]⟩ [] = .error e :=
  c6_amended_unknown_layout_identifier_errors.1
    ⟨[.Storage .In, .Layout [.Identifier "foo" (some (.IntConst 1))]]⟩ []
    [.Identifier "foo" (some (.IntConst 1))] "foo" (some (.IntConst 1))
    (by simp) (by simp) (by decide)

/-- C10: in an image/sampler variable declaration the only storage-format
layout identifier accepted is the bare `rgba32f`, recorded as the
declaration's type format; any other bare identifier is rejected (the
value-carrying ones are only `binding` and `set`), and `rgba32f` with an
attached value is rejected as well. -/
theorem c10_rgba32f_only_format :
    match_init_declarator_list ⟨⟨⟨some ⟨[.Layout [.Identifier "rgba32f" none,
        .Identifier "binding" (some (.IntConst 0))], .Storage .Uniform]⟩,
      ⟨.Image2D, none⟩⟩, some "img", none, none⟩, []⟩ =
      .ok (some ⟨"img", .Image2D, some 0, none, some "rgba32f"⟩) ∧
    (∀ (name : String) (acc : VarLayoutAcc), name ≠ "rgba32f" →
      ∃ e, matchVariableLayoutId name none acc = .error e) ∧
    (∀ (v : Expr) (acc : VarLayoutAcc),
      ∃ e, matchVariableLayoutId "rgba32f" (some v) acc = .error e) := by
  refine ⟨rfl, ?_, ?_⟩
  · intro name acc hne
    unfold matchVariableLayoutId
    split
    · simp_all
    · simp_all
    · simp_all
    · exact ⟨_, rfl⟩
  · intro v acc
    unfold matchVariableLayoutId
    split
    · simp_all
    · simp_all
    · simp_all
    · exact ⟨_, rfl⟩

theorem c10_rgba32f_only_format_witness :
    ∃ e, matchVariableLayoutId "rgba8" none ⟨none, none, none⟩ = .error e :=
  c10_rgba32f_only_format.2.1 "rgba8" ⟨none, none, none⟩ (by decide)

theorem assocGet_insert_self (m : List (DescriptorType × Nat))
    (k : DescriptorType) (v : Nat) :
    assocGet (assocInsert m k v) k = some v := by
  induction m with
  | nil => simp [assocInsert, assocGet]
  | cons p rest ih =>
    obtain ⟨k', v'⟩ := p
    by_cases h : k' = k
    · simp [assocInsert, assocGet, h]
    · simp [assocInsert, assocGet, h, ih]

theorem assocGet_insert_ne (m : List (DescriptorType × Nat))
    (k t : DescriptorType) (v : Nat) (hne : t ≠ k) :
    assocGet (assocInsert m k v) t = assocGet m t := by
  have hkt : ¬k = t := fun hh => hne hh.symm
  induction m with
  | nil => simp [assocInsert, assocGet, hkt]
  | cons p rest ih =>
    obtain ⟨k', v'⟩ := p
    by_cases h : k' = k
    · subst h
      simp [assocInsert, assocGet, hkt]
    · by_cases h2 : k' = t
      · subst h2
        simp [assocInsert, assocGet, h, hne]
      · simp [assocInsert, assocGet, h, h2, ih]

theorem accumulate_getD :
    ∀ (bs : List DescriptorSetLayoutBinding)
      (m : List (DescriptorType × Nat)) (t : DescriptorType),
      (assocGet (bs.foldl (fun m b =>
          assocInsert m b.descriptor_type
            ((assocGet m b.descriptor_type).getD 0 + 1)) m) t).getD 0 =
        (assocGet m t).getD 0 + countType bs t := by
  intro bs
  induction bs with
  | nil =>
    intro m t
    simp [countType]
  | cons b rest ih =>
    intro m t
    simp only [List.foldl_cons]
    rw [ih]
    by_cases h : b.descriptor_type = t
    · subst h
      rw [assocGet_insert_self]
      simp [countType, List.countP_cons]
      omega
    · rw [assocGet_insert_ne _ _ _ _ (fun c => h c.symm)]
      have hc : countType (b :: rest) t = countType rest t := by
        simp [countType, List.countP_cons, h]
      omega

theorem accumulate_isSome :
    ∀ (bs : List DescriptorSetLayoutBinding)
      (m : List (DescriptorType × Nat)) (t : DescriptorType),
      (assocGet (bs.foldl (fun m b =>
          assocInsert m b.descriptor_type
            ((assocGet m b.descriptor_type).getD 0 + 1)) m) t) = none ↔
        assocGet m t = none ∧ countType bs t = 0 := by
  intro bs
  induction bs with
  | nil =>
    intro m t
    simp [countType]
  | cons b rest ih =>
    intro m t
    simp only [List.foldl_cons]
    rw [ih]
    by_cases h : b.descriptor_type = t
    · subst h
      rw [assocGet_insert_self]
      simp [countType, List.countP_cons]
    · rw [assocGet_insert_ne _ _ _ _ (fun c => h c.symm)]
      have hc : countType (b :: rest) t = countType rest t := by
        simp [countType, List.countP_cons, h]
      rw [hc]

theorem poolSize_find_map (R : Nat) (t : DescriptorType) :
    ∀ (m : List (DescriptorType × Nat)),
      ((m.map (fun p => DescriptorPoolSize.mk p.1 (p.2 * R))).find?
          (fun ps => decide (ps.ty = t))).map
        (fun ps => ps.descriptor_count) =
        (assocGet m t).map (fun v => v * R) := by
  intro m
  induction m with
  | nil => simp [assocGet]
  | cons p rest ih =>
    obtain ⟨k, v⟩ := p
    simp only [List.map_cons]
    by_cases h : k = t
    · rw [List.find?_cons_of_pos _ (by simp [h])]
      simp [assocGet, h]
    · rw [List.find?_cons_of_neg _ (by simp [h])]
      rw [ih]
      simp [assocGet, h]

/-- C7: for every descriptor type occurring among the given bindings, the
single created pool's descriptor count for that type is the number of
bindings of that type times the replica count `R`, and the pool's `max_sets`
is `R` (one pool serves all `R` replicas). -/
theorem c7_descriptor_pool_sizes (bs : List DescriptorSetLayoutBinding)
    (R : Nat) (t : DescriptorType)
    (h : t ∈ bs.map (fun b => b.descriptor_type)) :
    poolSizeOf (DescriptorPool.new bs R) t = some (countType bs t * R) ∧
    (DescriptorPool.new bs R).max_sets = R := by
  constructor
  · have hcount : 0 < countType bs t := by
      rw [countType, List.countP_pos_iff]
      obtain ⟨b, hb, hbt⟩ := List.mem_map.mp h
      exact ⟨b, hb, by simp [hbt]⟩
    have hget : assocGet (accumulate_bindings bs) t = some (countType bs t) := by
      have h1 := accumulate_getD bs [] t
      have h2 := accumulate_isSome bs [] t
      rw [accumulate_bindings]
      cases hg : assocGet (bs.foldl (fun m b =>
          assocInsert m b.descriptor_type
            ((assocGet m b.descriptor_type).getD 0 + 1)) []) t with
      | none =>
        rw [hg] at h2
        simp [assocGet] at h2
        omega
      | some c =>
        rw [hg] at h1
        simp [assocGet] at h1
        rw [h1]
    rw [poolSizeOf, DescriptorPool.new]
    simp only
    rw [poolSize_find_map R t (accumulate_bindings bs), hget]
    simp [Nat.mul_comm]
  · rfl

theorem c7_descriptor_pool_sizes_witness :
    poolSizeOf (DescriptorPool.new [⟨0, .UNIFORM_BUFFER⟩, ⟨1, .STORAGE_BUFFER⟩,
      ⟨2, .UNIFORM_BUFFER⟩] 3) .UNIFORM_BUFFER = some 6 ∧
    (DescriptorPool.new [⟨0, .UNIFORM_BUFFER⟩, ⟨1, .STORAGE_BUFFER⟩,
      ⟨2, .UNIFORM_BUFFER⟩] 3).max_sets = 3 :=
  c7_descriptor_pool_sizes [⟨0, .UNIFORM_BUFFER⟩, ⟨1, .STORAGE_BUFFER⟩,
    ⟨2, .UNIFORM_BUFFER⟩] 3 .UNIFORM_BUFFER (by decide)

theorem filter_ne_of_lt (l : List Nat) (c n : Nat) (hl : ∀ x ∈ l, x < c)
    (hn : c ≤ n) : l.filter (fun x => x ≠ n) = l := by
  rw [List.filter_eq_self]
  intro a ha
  have := hl a ha
  simp
  omega

theorem filter_ne_of_not_mem (l : List Nat) (n : Nat) (h : n ∉ l) :
    l.filter (fun x => x ≠ n) = l := by
  rw [List.filter_eq_self]
  intro a ha
  simp
  exact fun e => h (e ▸ ha)

theorem new_spec0 (o : Nat → Bool) (s : AllocState) (h0 : o s.calls = true) :
    MultiBufferUnit.new o s = (none, ⟨s.calls + 1, s.live⟩) := by
  simp [MultiBufferUnit.new, primAlloc, h0]

theorem new_spec1 (o : Nat → Bool) (s : AllocState) (h0 : o s.calls = false)
    (h1 : o (s.calls + 1) = true) :
    MultiBufferUnit.new o s =
      (none, primFree s.calls ⟨s.calls + 2, s.calls :: s.live⟩) := by
  simp [MultiBufferUnit.new, primAlloc, h0, h1]

theorem new_spec2 (o : Nat → Bool) (s : AllocState) (h0 : o s.calls = false)
    (h1 : o (s.calls + 1) = false) (h2 : o (s.calls + 2) = true) :
    MultiBufferUnit.new o s =
      (none, primFree (s.calls + 1) (primFree s.calls
        ⟨s.calls + 3, (s.calls + 1) :: s.calls :: s.live⟩)) := by
  simp [MultiBufferUnit.new, primAlloc, h0, h1, h2]

theorem new_spec3 (o : Nat → Bool) (s : AllocState) (h0 : o s.calls = false)
    (h1 : o (s.calls + 1) = false) (h2 : o (s.calls + 2) = false)
    (h3 : o (s.calls + 3) = true) :
    MultiBufferUnit.new o s =
      (none, primFree (s.calls + 2) (primFree (s.calls + 1) (primFree s.calls
        ⟨s.calls + 4, (s.calls + 2) :: (s.calls + 1) :: s.calls :: s.live⟩))) := by
  simp [MultiBufferUnit.new, primAlloc, primCall, h0, h1, h2, h3]

theorem new_spec4 (o : Nat → Bool) (s : AllocState) (h0 : o s.calls = false)
    (h1 : o (s.calls + 1) = false) (h2 : o (s.calls + 2) = false)
    (h3 : o (s.calls + 3) = false) :
    MultiBufferUnit.new o s =
      (some ⟨s.calls, s.calls + 1, s.calls + 2⟩,
        ⟨s.calls + 4, (s.calls + 2) :: (s.calls + 1) :: s.calls :: s.live⟩) := by
  simp [MultiBufferUnit.new, primAlloc, primCall, h0, h1, h2, h3]

theorem free1_live (c k : Nat) (l : List Nat) (hl : ∀ x ∈ l, x < c) :
    (primFree c ⟨k, c :: l⟩).live = l := by
  simp [primFree, List.filter_cons]
  intro a ha
  have := hl a ha
  omega

theorem free2_live (c k : Nat) (l : List Nat) (hl : ∀ x ∈ l, x < c) :
    (primFree (c + 1) (primFree c ⟨k, (c + 1) :: c :: l⟩)).live = l := by
  have hne : c + 1 ≠ c := by omega
  simp [primFree, List.filter_cons, hne]
  intro a ha
  have := hl a ha
  omega

theorem free3_live (c k : Nat) (l : List Nat) (hl : ∀ x ∈ l, x < c) :
    (primFree (c + 2) (primFree (c + 1) (primFree c
      ⟨k, (c + 2) :: (c + 1) :: c :: l⟩))).live = l := by
  have hne1 : c + 1 ≠ c := by omega
  have hne2 : c + 2 ≠ c := by omega
  have hne3 : c + 2 ≠ c + 1 := by omega
  simp [primFree, List.filter_cons, hne1, hne2, hne3]
  intro a ha
  have := hl a ha
  omega

theorem unit_new_fail (o : Nat → Bool) (s s₁ : AllocState) (hwf : AllocWF s)
    (h : MultiBufferUnit.new o s = (none, s₁)) :
    s₁.live = s.live ∧ s.calls ≤ s₁.calls := by
  cases h0 : o s.calls with
  | true =>
    rw [new_spec0 o s h0] at h
    injection h with _ hb
    subst hb
    exact ⟨rfl, Nat.le_succ _⟩
  | false =>
    cases h1 : o (s.calls + 1) with
    | true =>
      rw [new_spec1 o s h0 h1] at h
      injection h with _ hb
      subst hb
      refine ⟨free1_live s.calls (s.calls + 2) s.live hwf, ?_⟩
      simp [primFree]
    | false =>
      cases h2 : o (s.calls + 2) with
      | true =>
        rw [new_spec2 o s h0 h1 h2] at h
        injection h with _ hb
        subst hb
        refine ⟨free2_live s.calls (s.calls + 3) s.live hwf, ?_⟩
        simp [primFree]
      | false =>
        cases h3 : o (s.calls + 3) with
        | true =>
          rw [new_spec3 o s h0 h1 h2 h3] at h
          injection h with _ hb
          subst hb
          refine ⟨free3_live s.calls (s.calls + 4) s.live hwf, ?_⟩
          simp [primFree]
        | false =>
          rw [new_spec4 o s h0 h1 h2 h3] at h
          injection h with ha _
          simp at ha

theorem unit_new_ok (o : Nat → Bool) (s : AllocState) (u : MultiBufferUnit)
    (s' : AllocState) (h : MultiBufferUnit.new o s = (some u, s')) :
    u = ⟨s.calls, s.calls + 1, s.calls + 2⟩ ∧
    s' = ⟨s.calls + 4,
      (s.calls + 2) :: (s.calls + 1) :: s.calls :: s.live⟩ := by
  cases h0 : o s.calls with
  | true =>
    rw [new_spec0 o s h0] at h
    injection h with ha _
    simp at ha
  | false =>
    cases h1 : o (s.calls + 1) with
    | true =>
      rw [new_spec1 o s h0 h1] at h
      injection h with ha _
      simp at ha
    | false =>
      cases h2 : o (s.calls + 2) with
      | true =>
        rw [new_spec2 o s h0 h1 h2] at h
        injection h with ha _
        simp at ha
      | false =>
        cases h3 : o (s.calls + 3) with
        | true =>
          rw [new_spec3 o s h0 h1 h2 h3] at h
          injection h with ha _
          simp at ha
        | false =>
          rw [new_spec4 o s h0 h1 h2 h3] at h
          injection h with ha hb
          injection ha with ha
          exact ⟨ha.symm, hb.symm⟩

theorem filter_keep (a n : Nat) (L : List Nat) (h : a ≠ n) :
    List.filter (fun x => x ≠ n) (a :: L) =
      a :: List.filter (fun x => x ≠ n) L := by
  simp [List.filter_cons, h]

theorem filter_drop_head (n : Nat) (L : List Nat) :
    List.filter (fun x => x ≠ n) (n :: L) =
      List.filter (fun x => x ≠ n) L := by
  simp [List.filter_cons]

theorem dropUnits_live :
    ∀ (acc : List MultiBufferUnit) (s : AllocState) (tail : List Nat),
      s.live = unitIds acc ++ tail →
      (∀ i ∈ unitIds acc, i ∉ tail) →
      (unitIds acc).Nodup →
      (dropUnits acc s).live = tail := by
  intro acc
  induction acc with
  | nil =>
    intro s tail h _ _
    simpa [dropUnits, unitIds] using h
  | cons u rest ih =>
    intro s tail h hdisj hnd
    simp only [unitIds] at h hdisj hnd
    obtain ⟨hm_nin, hnd1⟩ := List.nodup_cons.mp hnd
    obtain ⟨hme_nin, hnd2⟩ := List.nodup_cons.mp hnd1
    obtain ⟨hb_nin, hnd3⟩ := List.nodup_cons.mp hnd2
    have hmb : u.mapping ≠ u.buffer :=
      fun c => hm_nin (c ▸ List.mem_cons_of_mem _ (List.mem_cons_self _ _))
    have hmme : u.mapping ≠ u.memory :=
      fun c => hm_nin (c ▸ List.mem_cons_self _ _)
    have hmeb : u.memory ≠ u.buffer :=
      fun c => hme_nin (c ▸ List.mem_cons_self _ _)
    have hm_ids : u.mapping ∉ unitIds rest :=
      fun c => hm_nin (List.mem_cons_of_mem _ (List.mem_cons_of_mem _ c))
    have hme_ids : u.memory ∉ unitIds rest :=
      fun c => hme_nin (List.mem_cons_of_mem _ c)
    have hbL : u.buffer ∉ unitIds rest ++ tail := by
      rw [List.mem_append]
      rintro (c | c)
      · exact hb_nin c
      · exact hdisj u.buffer (List.mem_cons_of_mem _
          (List.mem_cons_of_mem _ (List.mem_cons_self _ _))) c
    have hmeL : u.memory ∉ unitIds rest ++ tail := by
      rw [List.mem_append]
      rintro (c | c)
      · exact hme_ids c
      · exact hdisj u.memory (List.mem_cons_of_mem _
          (List.mem_cons_self _ _)) c
    have hmL : u.mapping ∉ unitIds rest ++ tail := by
      rw [List.mem_append]
      rintro (c | c)
      · exact hm_ids c
      · exact hdisj u.mapping (List.mem_cons_self _ _) c
    have hdrop : (u.drop s).live = unitIds rest ++ tail := by
      show (((s.live.filter (fun x => x ≠ u.buffer)).filter
        (fun x => x ≠ u.memory)).filter (fun x => x ≠ u.mapping)) =
        unitIds rest ++ tail
      rw [h]
      simp [List.filter_cons, hmb, hmeb, hmme]
      congr 1
      · rw [List.filter_eq_self]
        intro a ha
        simp
        refine ⟨fun e => hm_ids (e ▸ ha), fun e => hme_ids (e ▸ ha),
          fun e => hb_nin (e ▸ ha)⟩
      · rw [List.filter_eq_self]
        intro a ha
        simp
        refine ⟨fun e => hmL (List.mem_append.mpr (Or.inr (e ▸ ha))),
          fun e => hmeL (List.mem_append.mpr (Or.inr (e ▸ ha))),
          fun e => hbL (List.mem_append.mpr (Or.inr (e ▸ ha)))⟩
    show (dropUnits rest (u.drop s)).live = tail
    exact ih (u.drop s) tail hdrop
      (fun i hi => hdisj i (List.mem_cons_of_mem _ (List.mem_cons_of_mem _
        (List.mem_cons_of_mem _ hi)))) hnd3

theorem multiBufferGo_fail (o : Nat → Bool) (tail : List Nat) :
    ∀ (k : Nat) (acc : List MultiBufferUnit) (s : AllocState),
      AllocWF s → s.live = unitIds acc ++ tail →
      (∀ i ∈ unitIds acc, i ∉ tail) → (unitIds acc).Nodup →
      ∀ s₁, multiBufferGo o k acc s = (none, s₁) →
      s₁.live = tail := by
  intro k
  induction k with
  | zero =>
    intro acc s _ _ _ _ s₁ h
    simp [multiBufferGo] at h
  | succ k ih =>
    intro acc s hwf hlive hdisj hnd s₁ h
    have hlt_ids : ∀ i ∈ unitIds acc, i < s.calls := by
      intro i hi
      exact hwf i (hlive ▸ List.mem_append.mpr (Or.inl hi))
    have hlt_tail : ∀ j ∈ tail, j < s.calls := by
      intro j hj
      exact hwf j (hlive ▸ List.mem_append.mpr (Or.inr hj))
    rcases hu : MultiBufferUnit.new o s with ⟨ru, su⟩
    cases ru with
    | none =>
      simp only [multiBufferGo, hu] at h
      injection h with _ hb
      subst hb
      obtain ⟨hl, _⟩ := unit_new_fail o s su hwf hu
      exact dropUnits_live acc su tail (hl.trans hlive) hdisj hnd
    | some u =>
      simp only [multiBufferGo, hu] at h
      obtain ⟨hu1, hu2⟩ := unit_new_ok o s u su hu
      refine ih (u :: acc) su ?_ ?_ ?_ ?_ s₁ h
      · intro x hx
        rw [hu2] at hx ⊢
        simp only [List.mem_cons] at hx
        rcases hx with rfl | rfl | rfl | hx
        · simp
        · simp
        · simp
        · have := hwf x hx
          simp
          omega
      · rw [hu2, hu1]
        simp [unitIds, hlive]
      · intro i hi
        rw [hu1] at hi
        simp only [unitIds, List.mem_cons] at hi
        rcases hi with rfl | rfl | rfl | hi
        · intro c
          have := hlt_tail _ c
          omega
        · intro c
          have := hlt_tail _ c
          omega
        · intro c
          have := hlt_tail _ c
          omega
        · exact hdisj i hi
      · rw [hu1]
        simp only [unitIds, List.nodup_cons]
        refine ⟨?_, ?_, ?_, hnd⟩
        · simp only [List.mem_cons]
          rintro (c | c | c)
          · omega
          · omega
          · have := hlt_ids _ c
            omega
        · simp only [List.mem_cons]
          rintro (c | c)
          · omega
          · have := hlt_ids _ c
            omega
        · intro c
          have := hlt_ids _ c
          omega

theorem multiBufferGo_ok_length (o : Nat → Bool) :
    ∀ (k : Nat) (acc : List MultiBufferUnit) (s : AllocState)
      (us : List MultiBufferUnit) (s₁ : AllocState),
      multiBufferGo o k acc s = (some us, s₁) →
      us.length = k + acc.length := by
  intro k
  induction k with
  | zero =>
    intro acc s us s₁ h
    simp only [multiBufferGo] at h
    injection h with ha _
    injection ha with ha
    rw [← ha]
    simp
  | succ k ih =>
    intro acc s us s₁ h
    rcases hu : MultiBufferUnit.new o s with ⟨ru, su⟩
    cases ru with
    | none => simp [multiBufferGo, hu] at h
    | some u =>
      simp only [multiBufferGo, hu] at h
      have hr := ih (u :: acc) su us s₁ h
      simp only [List.length_cons] at hr
      omega

/-- C8: if constructing a MultiBuffer with some replica count fails after
some replicas were already created, then every buffer, device memory and
host mapping acquired during the call has been released again — the
allocation state's live set is exactly what it was before the call.
Modelled from the spec: the Drop impls of `Buffer` and `MemoryMapping` are
not under src/, so the release-on-drop behavior follows the spec's destroy
and rollback contract. -/
theorem c8_multibuffer_rollback (o : Nat → Bool) (n : Nat)
    (s s₁ : AllocState) (hwf : AllocWF s)
    (h : MultiBuffer.new o n s = (none, s₁)) :
    s₁.live = s.live :=
  multiBufferGo_fail o s.live n [] s hwf (by simp [unitIds])
    (by simp [unitIds]) (by simp [unitIds]) s₁ h

theorem c8_multibuffer_rollback_witness :
    (⟨6, []⟩ : AllocState).live = (AllocState.mk 0 []).live :=
  c8_multibuffer_rollback (fun n => decide (n = 5)) 2 ⟨0, []⟩ ⟨6, []⟩
    (by intro x hx; simp at hx) (by decide)

/-- C9: a successfully created MultiBuffer with replica count R exposes
exactly R replicas, and `mapped` succeeds (returns a pointer) precisely for
indices in [0, R); any other index is the panic (`.error`) side, never a
returned pointer. -/
theorem c9_multibuffer_replicas_and_mapped (o : Nat → Bool) (R : Nat)
    (s s₁ : AllocState) (units : List MultiBufferUnit)
    (h : MultiBuffer.new o R s = (some units, s₁)) :
    units.length = R ∧
    (∀ i : Nat, (∃ p, MultiBuffer.mapped units i = .ok p) ↔ i < R) := by
  have hlen : units.length = R := by
    have := multiBufferGo_ok_length o R [] s units s₁ h
    simpa using this
  refine ⟨hlen, ?_⟩
  intro i
  constructor
  · rintro ⟨p, hp⟩
    by_contra hni
    unfold MultiBuffer.mapped at hp
    rw [dif_neg (by rw [hlen]; exact hni)] at hp
    exact absurd hp (by simp)
  · intro hi
    have hi' : i < units.length := by omega
    refine ⟨(units.get ⟨i, hi'⟩).mapping, ?_⟩
    unfold MultiBuffer.mapped
    rw [dif_pos hi']

theorem c9_multibuffer_replicas_and_mapped_witness :
    ([⟨0, 1, 2⟩, ⟨4, 5, 6⟩, ⟨8, 9, 10⟩] : List MultiBufferUnit).length = 3 ∧
    (∀ i : Nat, (∃ p, MultiBuffer.mapped
      [⟨0, 1, 2⟩, ⟨4, 5, 6⟩, ⟨8, 9, 10⟩] i = .ok p) ↔ i < 3) :=
  c9_multibuffer_replicas_and_mapped (fun _ => false) 3 ⟨0, []⟩
    ⟨12, [10, 9, 8, 6, 5, 4, 2, 1, 0]⟩ [⟨0, 1, 2⟩, ⟨4, 5, 6⟩, ⟨8, 9, 10⟩]
    (by decide)
